import Mathlib

/-!
Shallow embedding of the CHIP-8 emulator core (c8.c) and verification of its
specification claims.  Machine integers are modelled as `Nat` with explicit
truncation: bytes are reduced modulo 256 where the C stores into `uint8_t`,
16-bit quantities modulo 65536, and 64-bit display rows modulo 2 ^ 64.
RAM, the register file, the call stack and the display rows are modelled as
total functions from `Nat`; the bounds-checked C accessors terminate the
process on an out-of-range address, and every execution considered here
stays in range, so the accessors are modelled on their in-range behaviour.
-/

/-- Pointwise update of a function, modelling a store into a C array. -/
def upd (f : Nat → Nat) (k x : Nat) : Nat → Nat := fun j => if j = k then x else f j

/-- Unsigned 8-bit addition: the value stored by a C `uint8_t` compound add. -/
def add8 (a b : Nat) : Nat := (a + b) % 256

/-- Unsigned 8-bit subtraction: the value stored by a C `uint8_t` compound
subtract, i.e. a - b modulo 256 (for byte operands b < 256 this is
(a + 256 - b) % 256). -/
def sub8 (a b : Nat) : Nat := (a + (256 - b % 256)) % 256

/-- The display (Display_t): 32 rows, each row one 64-bit value where bit x is
column x.  The SDL renderer handle of the C struct is pure I/O and carries no
machine state, so it is omitted. -/
structure Display_t where
  p : Nat → Nat

/-- ram_get_byte: read one byte of RAM.  The C function terminates the process
when address >= 4096; all executions considered here stay in bounds. -/
def ram_get_byte (ram : Nat → Nat) (address : Nat) : Nat := ram address

/-- ram_write_byte: write one byte of RAM (same bounds discipline as reads). -/
def ram_write_byte (ram : Nat → Nat) (address byte : Nat) : Nat → Nat :=
  upd ram address byte

/-- ram_get_instruction: big-endian fetch of two consecutive bytes; the second
address is the uint16 value address + 1. -/
def ram_get_instruction (ram : Nat → Nat) (address : Nat) : Nat :=
  (ram_get_byte ram address <<< 8) ||| ram_get_byte ram ((address + 1) % 65536)

/-- The three bit-swap stages at the top of display_draw_row, mirroring a
sprite byte (most significant bit = leftmost pixel) into the row encoding
(bit 0 = leftmost column).  The C inlines these three assignments. -/
def mirror_byte (row : Nat) : Nat :=
  let r1 := ((row &&& 0xF0) >>> 4) ||| ((row &&& 0x0F) <<< 4)
  let r2 := ((r1 &&& 0xCC) >>> 2) ||| ((r1 &&& 0x33) <<< 2)
  ((r2 &&& 0xAA) >>> 1) ||| ((r2 &&& 0x55) <<< 1)

/-- display_draw_row: XOR the mirrored sprite byte, shifted left by x, into
row y, and report a collision exactly when the 64-bit row value strictly
decreased as an unsigned integer (the C returns before > after). -/
def display_draw_row (d : Display_t) (row x y : Nat) : Display_t × Bool :=
  let m := mirror_byte row
  let before := d.p y
  let after := before ^^^ ((m <<< x) % 2 ^ 64)
  (⟨upd d.p y after⟩, decide (after < before))

/-- The CPU (CPU_t), including the RAM and display the C version points to.
`halt` is the single-bit HALT flag. -/
structure CPU_t where
  pc : Nat
  v : Nat → Nat
  i : Nat
  sp : Nat
  stack : Nat → Nat
  ram : Nat → Nat
  display : Display_t
  halt : Bool
  input : Nat
  delay : Nat
  sound : Nat

/-- cpu_reset: the reset state.  The C sets the RAM pointer to null; the RAM
is reattached before any execution, modelled here as the all-zero memory. -/
def cpu_reset (c : CPU_t) : CPU_t :=
  { pc := 0x200, v := fun _ => 0, i := 0, halt := false,
    stack := fun _ => 0, sp := 0, input := 0,
    ram := fun _ => 0, display := c.display, delay := 0, sound := 0 }

/-- The shared fall-through statement cpu->pc += INSTRUCTION_LENGTH, a uint16
increment by 2. -/
def pc_advance (c : CPU_t) : CPU_t := { c with pc := (c.pc + 2) % 65536 }

/-- cpu_execute: execute one instruction, mirroring the if/else chain of the
C function branch by branch (the dead `if (NULL)` arm is dropped).  Branches
that do not return early in the C fall through to `pc_advance`; the 1NNN and
2NNN branches and the three fault paths return without advancing.  `rnd`
stands for the value the call to rand() in the CXNN branch would produce. -/
def cpu_execute (c : CPU_t) (ins rnd : Nat) : CPU_t :=
  if c.halt then c
  else if ins = 0x00EE then
    -- Return: pop the stack; note there is no early return here, so the
    -- final pc advance applies after the pop.
    if c.sp < 1 then { c with halt := true }
    else pc_advance { c with sp := c.sp - 1, pc := c.stack (c.sp - 1) }
  else if (ins >>> 12) &&& 0xF = 0x1 then
    { c with pc := ins &&& 0xFFF }
  else if (ins >>> 12) &&& 0xF = 0x2 then
    if c.sp = 255 then { c with halt := true }
    else { c with stack := upd c.stack c.sp c.pc, sp := (c.sp + 1) % 256,
                  pc := ins &&& 0xFFF }
  else if (ins >>> 12) &&& 0xF = 0x3 then
    pc_advance (if c.v ((ins >>> 8) &&& 0xF) = ins &&& 0xFF then pc_advance c else c)
  else if (ins >>> 12) &&& 0xF = 0x4 then
    pc_advance (if c.v ((ins >>> 8) &&& 0xF) ≠ ins &&& 0xFF then pc_advance c else c)
  else if (ins >>> 12) &&& 0xF = 0x6 then
    pc_advance { c with v := upd c.v ((ins >>> 8) &&& 0xF) (ins &&& 0xFF) }
  else if (ins >>> 12) &&& 0xF = 0x7 then
    pc_advance { c with
      v := upd c.v ((ins >>> 8) &&& 0xF) (add8 (c.v ((ins >>> 8) &&& 0xF)) (ins &&& 0xFF)) }
  else if (ins >>> 12) &&& 0xF = 0x8 ∧ ins &&& 0xF = 0x0 then
    pc_advance { c with v := upd c.v ((ins >>> 8) &&& 0xF) (c.v ((ins &&& 0xF0) >>> 4)) }
  else if (ins >>> 12) &&& 0xF = 0x8 ∧ ins &&& 0xF = 0x2 then
    pc_advance { c with
      v := upd c.v ((ins >>> 8) &&& 0xF)
        (c.v ((ins >>> 8) &&& 0xF) &&& c.v ((ins &&& 0xF0) >>> 4)) }
  else if (ins >>> 12) &&& 0xF = 0x8 ∧ ins &&& 0xF = 0x4 then
    -- carry saves v[X] before the add; the flag compares it with the
    -- freshly stored sum.
    let carry := c.v ((ins >>> 8) &&& 0xF)
    let v1 := upd c.v ((ins >>> 8) &&& 0xF)
      (add8 (c.v ((ins >>> 8) &&& 0xF)) (c.v ((ins &&& 0xF0) >>> 4)))
    pc_advance { c with
      v := upd v1 0xF (if v1 ((ins >>> 8) &&& 0xF) < carry then 1 else 0) }
  else if (ins >>> 12) &&& 0xF = 0x8 ∧ ins &&& 0xF = 0x5 then
    -- the borrow flag is stored into v[F] first; the subtraction then
    -- re-reads both operands from the updated register file.
    let v1 := upd c.v 0xF
      (if c.v ((ins &&& 0xF0) >>> 4) > c.v ((ins >>> 8) &&& 0xF) then 1 else 0)
    pc_advance { c with
      v := upd v1 ((ins >>> 8) &&& 0xF)
        (sub8 (v1 ((ins >>> 8) &&& 0xF)) (v1 ((ins &&& 0xF0) >>> 4))) }
  else if (ins >>> 12) &&& 0xF = 0xA then
    pc_advance { c with i := ins &&& 0xFFF }
  else if (ins >>> 12) &&& 0xF = 0xC then
    pc_advance { c with v := upd c.v ((ins >>> 8) &&& 0xF) ((rnd &&& (ins &&& 0xFF)) &&& 0xFF) }
  else if (ins >>> 12) &&& 0xF = 0xD then
    let dr := (List.range (ins &&& 0xF)).foldl
      (fun acc h =>
        let r := display_draw_row acc.1 (ram_get_byte c.ram ((c.i + h) % 65536))
          (c.v ((ins >>> 8) &&& 0xF)) ((c.v ((ins &&& 0xF0) >>> 4) + h) % 256)
        (r.1, acc.2 || r.2))
      (c.display, false)
    pc_advance { c with display := dr.1, v := upd c.v 0xF (if dr.2 then 1 else 0) }
  else if (ins >>> 12) &&& 0xF = 0xE ∧ ins &&& 0xFF = 0xA1 then
    -- the C tests !(cpu->input & cpu->v[X]): the register VALUE is used as
    -- the mask (not 1 << v[X]); the trailing printf is pure I/O.
    pc_advance (if c.input &&& c.v ((ins >>> 8) &&& 0xF) = 0 then pc_advance c else c)
  else if (ins >>> 12) &&& 0xF = 0xF ∧ ins &&& 0xFF = 0x07 then
    pc_advance { c with v := upd c.v ((ins >>> 8) &&& 0xF) c.delay }
  else if (ins >>> 12) &&& 0xF = 0xF ∧ ins &&& 0xFF = 0x15 then
    pc_advance { c with delay := c.v ((ins >>> 8) &&& 0xF) }
  else if (ins >>> 12) &&& 0xF = 0xF ∧ ins &&& 0xFF = 0x18 then
    pc_advance { c with sound := c.v ((ins >>> 8) &&& 0xF) }
  else if (ins >>> 12) &&& 0xF = 0xF ∧ ins &&& 0xFF = 0x29 then
    pc_advance { c with i := (0x100 + c.v ((ins >>> 8) &&& 0xF) * 6) % 65536 }
  else if (ins >>> 12) &&& 0xF = 0xF ∧ ins &&& 0xFF = 0x33 then
    pc_advance { c with
      ram := ram_write_byte
        (ram_write_byte
          (ram_write_byte c.ram c.i (c.v ((ins >>> 8) &&& 0xF) / 100 % 10))
          ((c.i + 1) % 65536) (c.v ((ins >>> 8) &&& 0xF) / 10 % 10))
        ((c.i + 2) % 65536) (c.v ((ins >>> 8) &&& 0xF) / 1 % 10) }
  else if (ins >>> 12) &&& 0xF = 0xF ∧ ins &&& 0xFF = 0x65 then
    pc_advance { c with
      v := (List.range (((ins >>> 8) &&& 0xF) + 1)).foldl
        (fun vv k => upd vv k (ram_get_byte c.ram ((c.i + k) % 65536))) c.v }
  else
    { c with halt := true }

/-- cpu_timer_tick: decrement each timer when it is nonzero. -/
def cpu_timer_tick (c : CPU_t) : CPU_t :=
  { c with delay := if c.delay ≠ 0 then c.delay - 1 else c.delay,
           sound := if c.sound ≠ 0 then c.sound - 1 else c.sound }

/-- One fetch-execute step of the outer loop: fetch at pc, execute. -/
def cpu_step (c : CPU_t) : CPU_t :=
  cpu_execute c (ram_get_instruction c.ram c.pc) 0

/-- An all-zero display. -/
def display0 : Display_t := ⟨fun _ => 0⟩

/-- A zeroed base CPU, used to build concrete machines. -/
def cpu0 : CPU_t :=
  { pc := 0, v := fun _ => 0, i := 0, sp := 0, stack := fun _ => 0,
    ram := fun _ => 0, display := display0, halt := false, input := 0,
    delay := 0, sound := 0 }

/-- The call/return test ROM: bytes 61 00 22 04 60 06 00 EE at 0x200. -/
def rom_callret : Nat → Nat := fun a =>
  if a = 0x200 then 0x61 else if a = 0x201 then 0x00
  else if a = 0x202 then 0x22 else if a = 0x203 then 0x04
  else if a = 0x204 then 0x60 else if a = 0x205 then 0x06
  else if a = 0x206 then 0x00 else if a = 0x207 then 0xEE
  else 0

/-- Reset state attached to the call/return ROM. -/
def callret_init : CPU_t := { cpu_reset cpu0 with ram := rom_callret }

/-- n fetch-execute steps of the call/return program. -/
def callret_run : Nat → CPU_t
  | 0 => callret_init
  | n + 1 => cpu_step (callret_run n)

/-- The self-referential ROM: instruction 2000 at address 0 (bytes 20 00),
rest of memory zero. -/
def rom_selfcall : Nat → Nat := fun a => if a = 0 then 0x20 else 0

/-- Reset state on the self-call ROM with pc forced to 0, as in the
stack-overflow test of the C file. -/
def selfcall_init : CPU_t := { cpu_reset cpu0 with pc := 0, ram := rom_selfcall }

/-- n fetch-execute steps of the self-call program. -/
def selfcall_run : Nat → CPU_t
  | 0 => selfcall_init
  | n + 1 => cpu_step (selfcall_run n)

/-- Concrete pre-state for the EXA1 divergence: key 1 is held (latch 0x0002)
and V0 = 1. -/
def exa1_state : CPU_t :=
  { cpu0 with pc := 0x200, input := 2, v := upd (fun _ => 0) 0 1 }

/-- Concrete pre-state for return: sp = 1, stack[0] = 0x202, pc = 0x206. -/
def ret_state : CPU_t :=
  { cpu0 with pc := 0x206, sp := 1, stack := upd (fun _ => 0) 0 0x202 }

/-- Concrete pre-state with V0 = 0 and VF = 4 (all other registers 0). -/
def borrow_state : CPU_t := { cpu0 with v := upd (fun _ => 0) 15 4 }

/-- Concrete pre-state with V0 = 6 and V1 = 0xFE. -/
def add_state : CPU_t := { cpu0 with v := upd (upd (fun _ => 0) 0 6) 1 0xFE }

/-- Concrete pre-state with V0 = 0 and V1 = 4. -/
def sub_state : CPU_t := { cpu0 with v := upd (upd (fun _ => 0) 0 0) 1 4 }

/-- A halted CPU used to witness that execution is then a no-op. -/
def halted_state : CPU_t := { cpu0 with halt := true }

/-- C9: once the HALT flag is set, cpu_execute returns its input state
unchanged for every instruction: HALTED is terminal. -/
theorem c9_halt_noop (c : CPU_t) (ins rnd : Nat) (h : c.halt = true) :
    cpu_execute c ins rnd = c := by
  simp [cpu_execute, h]

/-- Witness for c9_halt_noop at a concrete halted state and instruction. -/
theorem c9_halt_noop_witness :
    cpu_execute halted_state 0x6001 7 = halted_state :=
  c9_halt_noop halted_state 0x6001 7 rfl

/-- C3: from reset on the ROM 61 00 22 04 60 06 00 EE, four fetch-execute
steps leave pc = 0x204 (the instruction after the call), sp = 0, V0 = 6. -/
theorem c3_callret_roundtrip :
    (callret_run 4).pc = 0x204 ∧ (callret_run 4).sp = 0 ∧
      (callret_run 4).v 0 = 0x06 := by
  refine ⟨?_, ?_, ?_⟩ <;> decide

/-- C8: a timer tick decrements each timer that is positive, leaves a zero
timer at zero, and changes no other CPU field. -/
theorem c8_timer_tick (c : CPU_t) :
    (cpu_timer_tick c).delay = (if 0 < c.delay then c.delay - 1 else 0)
    ∧ (cpu_timer_tick c).sound = (if 0 < c.sound then c.sound - 1 else 0)
    ∧ (cpu_timer_tick c).pc = c.pc ∧ (cpu_timer_tick c).v = c.v
    ∧ (cpu_timer_tick c).i = c.i ∧ (cpu_timer_tick c).sp = c.sp
    ∧ (cpu_timer_tick c).stack = c.stack ∧ (cpu_timer_tick c).ram = c.ram
    ∧ (cpu_timer_tick c).display = c.display
    ∧ (cpu_timer_tick c).halt = c.halt ∧ (cpu_timer_tick c).input = c.input := by
  refine ⟨?_, ?_, rfl, rfl, rfl, rfl, rfl, rfl, rfl, rfl, rfl⟩ <;>
    · simp only [cpu_timer_tick]
      split <;> split <;> omega

/-- C1 is a code bug: with the input latch 0x0002 (key 1 held) and V0 = 1,
instruction E0A1 skips (total pc advance of 4, landing at 0x204) even
though bit number V[0] = 1 of the latch is 1, because the C tests
(input & v[X]) with the register value as the mask instead of testing bit
v[X]; here 2 &&& 1 = 0, so the skip is taken. -/
theorem c1_exa1_value_mask :
    (cpu_execute exa1_state 0xE0A1 0).pc = 0x204
    ∧ Nat.testBit exa1_state.input (exa1_state.v 0) = true
    ∧ exa1_state.input &&& exa1_state.v 0 = 0 := by
  refine ⟨?_, ?_, ?_⟩ <;> decide

/-- C2 as stated is false: from a state with sp = 1, stack[0] = 0x202 and
pc = 0x206, executing 00EE leaves pc = 0x204, not the popped entry 0x202:
the 00EE branch has no early return, so the default advance-by-2 applies. -/
theorem c2_counterexample :
    (cpu_execute ret_state 0x00EE 0).pc = 0x204
    ∧ (cpu_execute ret_state 0x00EE 0).pc ≠ ret_state.stack 0
    ∧ ret_state.stack 0 = 0x202 := by
  refine ⟨?_, ?_, ?_⟩ <;> decide

/-- C2 amended: with HALT clear and sp ≥ 1, executing 00EE decrements sp by
one and sets pc to the popped stack entry plus 2 (mod 2 ^ 16), since the
00EE branch falls through to the default advance. -/
theorem c2_return_pops_then_advances (c : CPU_t) (rnd : Nat)
    (hH : c.halt = false) (hsp : 1 ≤ c.sp) :
    (cpu_execute c 0x00EE rnd).sp = c.sp - 1
    ∧ (cpu_execute c 0x00EE rnd).pc = (c.stack (c.sp - 1) + 2) % 65536 := by
  have hlt : ¬ c.sp < 1 := by omega
  constructor <;> simp [cpu_execute, hH, hlt, pc_advance]

/-- Witness for c2_return_pops_then_advances at the concrete return state. -/
theorem c2_return_pops_then_advances_witness :
    (cpu_execute ret_state 0x00EE 0).sp = ret_state.sp - 1
    ∧ (cpu_execute ret_state 0x00EE 0).pc
        = (ret_state.stack (ret_state.sp - 1) + 2) % 65536 :=
  c2_return_pops_then_advances ret_state 0 rfl (by decide)

/-- C7 as stated is false: with row byte 0x01, x = 57 and y = 0 on the zero
display, the mirrored byte 0x80 shifted by 57 is 2 ^ 64, which truncates to
0 in the 64-bit row, so the second identical draw reports no collision. -/
theorem c7_counterexample :
    (display_draw_row display0 0x01 57 0).2 = false
    ∧ (display_draw_row (display_draw_row display0 0x01 57 0).1 0x01 57 0).2
        = false := by
  constructor <;> decide

/-- C7 amended: for x < 64 and y < 32, drawing the same byte twice at the
same spot on a display whose row y is zero reports no collision the first
time, reports a collision the second time exactly when the mirrored byte
shifted by x is nonzero after 64-bit truncation, and leaves row y zero. -/
theorem c7_draw_twice (row x y : Nat) (d : Display_t)
    (hx : x < 64) (hy : y < 32) (h0 : d.p y = 0) :
    (display_draw_row d row x y).2 = false
    ∧ ((display_draw_row (display_draw_row d row x y).1 row x y).2 = true
        ↔ (mirror_byte row <<< x) % 2 ^ 64 ≠ 0)
    ∧ (display_draw_row (display_draw_row d row x y).1 row x y).1.p y = 0 := by
  refine ⟨?_, ?_, ?_⟩
  · simp [display_draw_row, upd, h0]
  · simp [display_draw_row, upd, h0, decide_eq_true_eq]
    try omega
  · simp [display_draw_row, upd, h0]

/-- Witness for c7_draw_twice: byte 0x80 at the origin of the zero display. -/
theorem c7_draw_twice_witness :
    (display_draw_row display0 0x80 0 0).2 = false
    ∧ ((display_draw_row (display_draw_row display0 0x80 0 0).1 0x80 0 0).2 = true
        ↔ (mirror_byte 0x80 <<< 0) % 2 ^ 64 ≠ 0)
    ∧ (display_draw_row (display_draw_row display0 0x80 0 0).1 0x80 0 0).1.p 0 = 0 :=
  c7_draw_twice 0x80 0 0 display0 (by decide) (by decide) rfl

/-- Reading back the updated cell of an array. -/
theorem upd_self (f : Nat → Nat) (k x : Nat) : upd f k x k = x := by
  simp [upd]

/-- Reading a different cell after an update. -/
theorem upd_other (f : Nat → Nat) (k x j : Nat) (h : j ≠ k) : upd f k x j = f j := by
  simp [upd, h]

/-- Decode facts for a 2NNN call instruction. -/
theorem call_decode (nnn : Nat) (hn : nnn < 4096) :
    (0x2000 + nnn ≠ 0x00EE)
    ∧ ((0x2000 + nnn) >>> 12) &&& 0xF = 0x2
    ∧ (0x2000 + nnn) &&& 0xFFF = nnn := by
  refine ⟨by omega, ?_, ?_⟩
  · have h : (0x2000 + nnn) >>> 12 = 2 := by
      rw [Nat.shiftRight_eq_div_pow]; omega
    rw [h]; rfl
  · rw [show (0xFFF : Nat) = 2 ^ 12 - 1 from rfl, Nat.and_pow_two_sub_one_eq_mod]
    omega

set_option maxRecDepth 4000 in
/-- Decode facts for an 8XY4 instruction, by exhausting the register pairs. -/
theorem add_decode : ∀ X Y : Fin 16,
    (0x8000 + 256 * X.1 + 16 * Y.1 + 4 ≠ 0x00EE)
    ∧ ((0x8000 + 256 * X.1 + 16 * Y.1 + 4) >>> 12) &&& 0xF = 0x8
    ∧ (0x8000 + 256 * X.1 + 16 * Y.1 + 4) &&& 0xF = 0x4
    ∧ ((0x8000 + 256 * X.1 + 16 * Y.1 + 4) >>> 8) &&& 0xF = X.1
    ∧ ((0x8000 + 256 * X.1 + 16 * Y.1 + 4) &&& 0xF0) >>> 4 = Y.1 := by decide

set_option maxRecDepth 4000 in
/-- Decode facts for an 8XY5 instruction, by exhausting the register pairs. -/
theorem sub_decode : ∀ X Y : Fin 16,
    (0x8000 + 256 * X.1 + 16 * Y.1 + 5 ≠ 0x00EE)
    ∧ ((0x8000 + 256 * X.1 + 16 * Y.1 + 5) >>> 12) &&& 0xF = 0x8
    ∧ (0x8000 + 256 * X.1 + 16 * Y.1 + 5) &&& 0xF = 0x5
    ∧ ((0x8000 + 256 * X.1 + 16 * Y.1 + 5) >>> 8) &&& 0xF = X.1
    ∧ ((0x8000 + 256 * X.1 + 16 * Y.1 + 5) &&& 0xF0) >>> 4 = Y.1 := by decide

set_option maxRecDepth 8000 in
/-- C4: the call stack has capacity exactly 255.  A 2NNN call with sp < 255
pushes the current pc and increments sp; with sp = 255 it only sets HALT,
leaving every other field (pc, sp, registers, stack) unchanged; and the
self-referential 2000 program is still running after 255 calls and halts
exactly on the 256th call attempt with sp still 255. -/
theorem c4_stack_capacity :
    (∀ (c : CPU_t) (nnn rnd : Nat), nnn < 4096 → c.halt = false → c.sp < 255 →
      (cpu_execute c (0x2000 + nnn) rnd).sp = c.sp + 1
      ∧ (cpu_execute c (0x2000 + nnn) rnd).stack = upd c.stack c.sp c.pc
      ∧ (cpu_execute c (0x2000 + nnn) rnd).pc = nnn)
    ∧ (∀ (c : CPU_t) (nnn rnd : Nat), nnn < 4096 → c.halt = false → c.sp = 255 →
      cpu_execute c (0x2000 + nnn) rnd = { c with halt := true })
    ∧ (selfcall_run 255).halt = false ∧ (selfcall_run 255).sp = 255
    ∧ (selfcall_run 256).halt = true ∧ (selfcall_run 256).sp = 255 := by
  refine ⟨?_, ?_, by decide, by decide, by decide, by decide⟩
  · intro c nnn rnd hn hH hsp
    have hne : 0x2000 + nnn ≠ 0x00EE := (call_decode nnn hn).1
    have htop : ((0x2000 + nnn) >>> 12) &&& 0xF = 0x2 := (call_decode nnn hn).2.1
    have hfff : (0x2000 + nnn) &&& 0xFFF = nnn := (call_decode nnn hn).2.2
    have hsp255 : c.sp ≠ 255 := by omega
    refine ⟨?_, ?_, ?_⟩ <;> simp [cpu_execute, hne, htop, hfff, hH, hsp255] <;> omega
  · intro c nnn rnd hn hH hsp
    have hne : 0x2000 + nnn ≠ 0x00EE := (call_decode nnn hn).1
    have htop : ((0x2000 + nnn) >>> 12) &&& 0xF = 0x2 := (call_decode nnn hn).2.1
    simp [cpu_execute, hne, htop, hH, hsp]

/-- Witness for the quantified parts of c4_stack_capacity: a concrete call
from the reset state pushes 0x200 and jumps, and a concrete call at
sp = 255 only halts. -/
theorem c4_stack_capacity_witness :
    ((cpu_execute callret_init (0x2000 + 0x123) 0).sp = callret_init.sp + 1
      ∧ (cpu_execute callret_init (0x2000 + 0x123) 0).stack
          = upd callret_init.stack callret_init.sp callret_init.pc
      ∧ (cpu_execute callret_init (0x2000 + 0x123) 0).pc = 0x123)
    ∧ cpu_execute (selfcall_run 255) (0x2000 + 0) 0
        = { selfcall_run 255 with halt := true } :=
  ⟨c4_stack_capacity.1 callret_init 0x123 0 (by decide) rfl (by decide),
   c4_stack_capacity.2.1 (selfcall_run 255) 0 0 (by decide)
     c4_stack_capacity.2.2.1 c4_stack_capacity.2.2.2.1⟩

/-- C5: 8XY4 stores the 8-bit wrapped sum of the original V[X] and V[Y] into
V[X] and then stores into V[F] 1 exactly when the unsigned 8-bit addition
overflowed, else 0; the overflow test is equivalent to the wrapped result
being less than the original V[X]. -/
theorem c5_add_overflow_flag (X Y : Nat) (c : CPU_t) (rnd : Nat)
    (hX : X < 16) (hY : Y < 16) (hH : c.halt = false)
    (hvX : c.v X < 256) (hvY : c.v Y < 256) :
    (cpu_execute c (0x8000 + 256 * X + 16 * Y + 4) rnd).v
      = upd (upd c.v X ((c.v X + c.v Y) % 256)) 0xF
          (if 256 ≤ c.v X + c.v Y then 1 else 0)
    ∧ (256 ≤ c.v X + c.v Y ↔ (c.v X + c.v Y) % 256 < c.v X) := by
  have hne : 0x8000 + 256 * X + 16 * Y + 4 ≠ 0x00EE :=
    (add_decode ⟨X, hX⟩ ⟨Y, hY⟩).1
  have htop : ((0x8000 + 256 * X + 16 * Y + 4) >>> 12) &&& 0xF = 0x8 :=
    (add_decode ⟨X, hX⟩ ⟨Y, hY⟩).2.1
  have hlow : (0x8000 + 256 * X + 16 * Y + 4) &&& 0xF = 0x4 :=
    (add_decode ⟨X, hX⟩ ⟨Y, hY⟩).2.2.1
  have hx : ((0x8000 + 256 * X + 16 * Y + 4) >>> 8) &&& 0xF = X :=
    (add_decode ⟨X, hX⟩ ⟨Y, hY⟩).2.2.2.1
  have hy : ((0x8000 + 256 * X + 16 * Y + 4) &&& 0xF0) >>> 4 = Y :=
    (add_decode ⟨X, hX⟩ ⟨Y, hY⟩).2.2.2.2
  constructor
  · simp only [cpu_execute, hne, htop, hlow, hx, hy, hH]
    simp [pc_advance, add8, upd_self]
    have hiff : ((c.v X + c.v Y) % 256 < c.v X) ↔ (256 ≤ c.v X + c.v Y) := by
      omega
    rw [if_congr hiff rfl rfl]
  · omega

/-- Witness for c5_add_overflow_flag: the example from the specification,
V0 = 6 and V1 = 0xFE, executing 8014. -/
theorem c5_add_overflow_flag_witness :
    ((cpu_execute add_state (0x8000 + 256 * 0 + 16 * 1 + 4) 0).v
        = upd (upd add_state.v 0 ((add_state.v 0 + add_state.v 1) % 256)) 0xF
            (if 256 ≤ add_state.v 0 + add_state.v 1 then 1 else 0)
      ∧ (256 ≤ add_state.v 0 + add_state.v 1
          ↔ (add_state.v 0 + add_state.v 1) % 256 < add_state.v 0))
    ∧ (cpu_execute add_state 0x8014 0).v 0 = 4
    ∧ (cpu_execute add_state 0x8014 0).v 0xF = 1 :=
  ⟨c5_add_overflow_flag 0 1 add_state 0 (by decide) (by decide) rfl
      (by decide) (by decide),
   by decide, by decide⟩

/-- C6 as stated is false when Y = 0xF: with V0 = 0 and VF = 4, executing
80F5 leaves V0 = 0xFF, not the claimed original V0 minus original VF
(which would be 0xFC), because the subtraction reads VF after the borrow
flag has already been written into it. -/
theorem c6_counterexample :
    (cpu_execute borrow_state 0x80F5 0).v 0 = 0xFF
    ∧ (borrow_state.v 0 + 256 - borrow_state.v 0xF) % 256 = 0xFC
    ∧ (cpu_execute borrow_state 0x80F5 0).v 0
        ≠ (borrow_state.v 0 + 256 - borrow_state.v 0xF) % 256 := by
  refine ⟨?_, ?_, ?_⟩ <;> decide

/-- C6 amended: restricted to X ≠ 0xF and Y ≠ 0xF, 8XY5 stores into V[F] 1
exactly when the original V[Y] exceeds the original V[X] (the borrow test is
evaluated before the subtraction), else 0, and stores into V[X] the original
V[X] minus the original V[Y] with 8-bit wraparound.  When X or Y is 0xF the
flag write interferes with the subtraction (see the counterexample and the
Y = 0xF behaviour proved separately). -/
theorem c6_sub_borrow_flag (X Y : Nat) (c : CPU_t) (rnd : Nat)
    (hX : X < 16) (hY : Y < 16) (hXF : X ≠ 0xF) (hYF : Y ≠ 0xF)
    (hH : c.halt = false) (hvX : c.v X < 256) (hvY : c.v Y < 256) :
    (cpu_execute c (0x8000 + 256 * X + 16 * Y + 5) rnd).v X
        = (c.v X + 256 - c.v Y) % 256
    ∧ (cpu_execute c (0x8000 + 256 * X + 16 * Y + 5) rnd).v 0xF
        = (if c.v Y > c.v X then 1 else 0) := by
  have hne : 0x8000 + 256 * X + 16 * Y + 5 ≠ 0x00EE :=
    (sub_decode ⟨X, hX⟩ ⟨Y, hY⟩).1
  have htop : ((0x8000 + 256 * X + 16 * Y + 5) >>> 12) &&& 0xF = 0x8 :=
    (sub_decode ⟨X, hX⟩ ⟨Y, hY⟩).2.1
  have hlow : (0x8000 + 256 * X + 16 * Y + 5) &&& 0xF = 0x5 :=
    (sub_decode ⟨X, hX⟩ ⟨Y, hY⟩).2.2.1
  have hx : ((0x8000 + 256 * X + 16 * Y + 5) >>> 8) &&& 0xF = X :=
    (sub_decode ⟨X, hX⟩ ⟨Y, hY⟩).2.2.2.1
  have hy : ((0x8000 + 256 * X + 16 * Y + 5) &&& 0xF0) >>> 4 = Y :=
    (sub_decode ⟨X, hX⟩ ⟨Y, hY⟩).2.2.2.2
  have hFX : (0xF : Nat) ≠ X := Ne.symm hXF
  constructor
  · simp only [cpu_execute, hne, htop, hlow, hx, hy, hH]
    simp [pc_advance, upd_self, upd_other _ _ _ _ hXF, upd_other _ _ _ _ hYF, sub8]
    omega
  · simp only [cpu_execute, hne, htop, hlow, hx, hy, hH]
    simp [pc_advance, upd_self, upd_other _ _ _ _ hFX]

/-- Witness for c6_sub_borrow_flag: the example from the specification,
V0 = 0 and V1 = 4, executing 8015, giving V0 = 0xFC and VF = 1. -/
theorem c6_sub_borrow_flag_witness :
    ((cpu_execute sub_state (0x8000 + 256 * 0 + 16 * 1 + 5) 0).v 0
        = (sub_state.v 0 + 256 - sub_state.v 1) % 256
      ∧ (cpu_execute sub_state (0x8000 + 256 * 0 + 16 * 1 + 5) 0).v 0xF
        = (if sub_state.v 1 > sub_state.v 0 then 1 else 0))
    ∧ (cpu_execute sub_state 0x8015 0).v 0 = 0xFC
    ∧ (cpu_execute sub_state 0x8015 0).v 0xF = 1 :=
  ⟨c6_sub_borrow_flag 0 1 sub_state 0 (by decide) (by decide) (by decide)
      (by decide) rfl (by decide) (by decide),
   by decide, by decide⟩

/-- C10: when Y = 0xF, the 8XF5 subtraction uses the freshly written borrow
flag: for X ≠ 0xF, V[F] becomes 1 exactly when the original V[F] exceeds the
original V[X] (else 0), and V[X] becomes the original V[X] minus that flag
value with 8-bit wraparound, not minus the original V[F]. -/
theorem c10_sub_uses_fresh_flag (X : Nat) (c : CPU_t) (rnd : Nat)
    (hX : X < 16) (hXF : X ≠ 0xF) (hH : c.halt = false)
    (hvX : c.v X < 256) (hvF : c.v 0xF < 256) :
    (cpu_execute c (0x8000 + 256 * X + 16 * 0xF + 5) rnd).v 0xF
        = (if c.v 0xF > c.v X then 1 else 0)
    ∧ (cpu_execute c (0x8000 + 256 * X + 16 * 0xF + 5) rnd).v X
        = (c.v X + 256 - (if c.v 0xF > c.v X then 1 else 0)) % 256 := by
  have hne : 0x8000 + 256 * X + 16 * 0xF + 5 ≠ 0x00EE :=
    (sub_decode ⟨X, hX⟩ ⟨0xF, by decide⟩).1
  have htop : ((0x8000 + 256 * X + 16 * 0xF + 5) >>> 12) &&& 0xF = 0x8 :=
    (sub_decode ⟨X, hX⟩ ⟨0xF, by decide⟩).2.1
  have hlow : (0x8000 + 256 * X + 16 * 0xF + 5) &&& 0xF = 0x5 :=
    (sub_decode ⟨X, hX⟩ ⟨0xF, by decide⟩).2.2.1
  have hx : ((0x8000 + 256 * X + 16 * 0xF + 5) >>> 8) &&& 0xF = X :=
    (sub_decode ⟨X, hX⟩ ⟨0xF, by decide⟩).2.2.2.1
  have hy : ((0x8000 + 256 * X + 16 * 0xF + 5) &&& 0xF0) >>> 4 = 0xF :=
    (sub_decode ⟨X, hX⟩ ⟨0xF, by decide⟩).2.2.2.2
  have hFX : (0xF : Nat) ≠ X := Ne.symm hXF
  constructor
  · simp only [cpu_execute, hne, htop, hlow, hx, hy, hH]
    simp [pc_advance, upd_self, upd_other _ _ _ _ hFX]
  · simp only [cpu_execute, hne, htop, hlow, hx, hy, hH]
    simp [pc_advance, upd_self, upd_other _ _ _ _ hXF, sub8]
    rcases Nat.lt_or_ge (c.v X) (c.v 0xF) with hb | hb
    · simp [hb]
    · have hb2 : ¬ c.v X < c.v 0xF := by omega
      simp [hb2]
      try omega

/-- Witness for c10_sub_uses_fresh_flag: V0 = 0 and VF = 4, executing 80F5,
giving VF = 1 (the borrow flag) and V0 = 0xFF = 0 - 1 mod 256. -/
theorem c10_sub_uses_fresh_flag_witness :
    ((cpu_execute borrow_state (0x8000 + 256 * 0 + 16 * 0xF + 5) 0).v 0xF
        = (if borrow_state.v 0xF > borrow_state.v 0 then 1 else 0)
      ∧ (cpu_execute borrow_state (0x8000 + 256 * 0 + 16 * 0xF + 5) 0).v 0
        = (borrow_state.v 0 + 256
            - (if borrow_state.v 0xF > borrow_state.v 0 then 1 else 0)) % 256)
    ∧ (cpu_execute borrow_state 0x80F5 0).v 0xF = 1
    ∧ (cpu_execute borrow_state 0x80F5 0).v 0 = 0xFF :=
  ⟨c10_sub_uses_fresh_flag 0 borrow_state 0 (by decide) (by decide) rfl
      (by decide) (by decide),
   by decide, by decide⟩
